import Mathlib

/-!
Shallow embedding of the execution-tracking and retry subsystem of the
stock-intelligence pipeline (tracker.py, base_agent.py, analyze_stock.py,
api/v1/intents.py), together with proofs about the spec's claims.

Modelling conventions:
* Wall-clock timestamps are abstract `Nat` values passed explicitly to each
  operation (the Python code calls `datetime.utcnow()` at those points).
* Redis is modelled as the pair of an association list of execution records
  (keys `"execution:" ++ id`, written with SETEX) and the `executions:list`
  sorted set (member/score pairs, written with ZADD).
* JSON-ish result payloads are modelled by the inductive `Value`; Python
  float literals become `Rat` literals.
-/

namespace StockPipeline

/-- JSON-like payload values used for agent results and parameters. -/
inductive Value where
  | vStr : String → Value
  | vNum : Rat → Value
  | vBool : Bool → Value
  | vNull : Value
  | vObj : List (String × Value) → Value

mutual

/-- Boolean equality on payload values (structural). -/
def Value.beq : Value → Value → Bool
  | .vStr a, .vStr b => a == b
  | .vNum a, .vNum b => a == b
  | .vBool a, .vBool b => a == b
  | .vNull, .vNull => true
  | .vObj a, .vObj b => Value.beqFields a b
  | _, _ => false

/-- Boolean equality on object field lists. -/
def Value.beqFields : List (String × Value) → List (String × Value) → Bool
  | [], [] => true
  | (k, v) :: r, (k2, v2) :: r2 => k == k2 && Value.beq v v2 && Value.beqFields r r2
  | _, _ => false

end

mutual

theorem Value.eq_of_beq : ∀ {a b : Value}, Value.beq a b = true → a = b
  | .vStr _, .vStr _, h => by
    simp only [Value.beq, beq_iff_eq] at h; rw [h]
  | .vNum _, .vNum _, h => by
    simp only [Value.beq, beq_iff_eq] at h; rw [h]
  | .vBool _, .vBool _, h => by
    simp only [Value.beq, beq_iff_eq] at h; rw [h]
  | .vNull, .vNull, _ => rfl
  | .vObj a, .vObj b, h => by
    simp only [Value.beq] at h; rw [Value.eqFields_of_beqFields h]

theorem Value.eqFields_of_beqFields :
    ∀ {a b : List (String × Value)}, Value.beqFields a b = true → a = b
  | [], [], _ => rfl
  | (k, v) :: r, (k2, v2) :: r2, h => by
    simp only [Value.beqFields, Bool.and_eq_true, beq_iff_eq] at h
    obtain ⟨⟨hk, hv⟩, hr⟩ := h
    rw [hk, Value.eq_of_beq hv, Value.eqFields_of_beqFields hr]

end

mutual

theorem Value.beq_refl : ∀ (a : Value), Value.beq a a = true
  | .vStr _ => by simp [Value.beq]
  | .vNum _ => by simp [Value.beq]
  | .vBool _ => by simp [Value.beq]
  | .vNull => rfl
  | .vObj a => Value.beqFields_refl a

theorem Value.beqFields_refl : ∀ (a : List (String × Value)), Value.beqFields a a = true
  | [] => rfl
  | (k, v) :: r => by
    simp only [Value.beqFields, Bool.and_eq_true, beq_iff_eq]
    exact ⟨⟨by simp, Value.beq_refl v⟩, Value.beqFields_refl r⟩

end

instance : DecidableEq Value := fun a b =>
  decidable_of_iff (Value.beq a b = true)
    ⟨Value.eq_of_beq, fun h => h ▸ Value.beq_refl a⟩

/-- `ExecutionStatus` enum from `models/execution.py` (used throughout
`tracker.py`): RUNNING, SUCCESS, FAILED. -/
inductive ExecutionStatus where
  | RUNNING | SUCCESS | FAILED
deriving DecidableEq

/-- `AgentExecution` sub-record: one per step (agent) invocation.
`started_at` is always set at construction by `start_agent`. -/
structure AgentExecution where
  agent_name : String
  status : ExecutionStatus
  started_at : Nat
  completed_at : Option Nat := none
  duration_seconds : Option Int := none
  result : Option Value := none
  error : Option String := none
deriving DecidableEq

/-- `ExecutionRecord`: one per job submission, as constructed by
`ExecutionTracker.start_execution`. -/
structure ExecutionRecord where
  execution_id : String
  intent_type : String
  status : ExecutionStatus
  started_at : Nat
  completed_at : Option Nat := none
  duration_seconds : Option Int := none
  parameters : List (String × Value)
  retry_count : Nat := 0
  agents : List AgentExecution := []
  result : Option Value := none
  error_message : Option String := none
deriving DecidableEq

/-! ## The Redis-backed store (`ExecutionTracker`, tracker.py)

Redis state is a keyed string store plus one sorted set `executions:list`.
We model the keyed store as an association list from keys
(`"execution:" ++ execution_id`) to deserialized `ExecutionRecord`s, and the
sorted set as an association list from member (execution id) to score
(creation timestamp).  SETEX overwrites the value at a key (and resets its
TTL, which we do not track as data: expiry is modelled by a record simply
being absent from `records` while its id may remain in `index`). -/

structure Store where
  records : List (String × ExecutionRecord)
  index : List (String × Nat)
deriving DecidableEq

/-- Association-list lookup: first binding wins (a Redis key is unique, but
the model tolerates arbitrary lists). -/
def alookup {α : Type} : List (String × α) → String → Option α
  | [], _ => none
  | (k, v) :: rest, key => if k = key then some v else alookup rest key

/-- Association-list store: overwrite the first binding of the key, append a
new binding if the key is absent (Redis SET/SETEX/ZADD semantics). -/
def astore {α : Type} : List (String × α) → String → α → List (String × α)
  | [], key, v => [(key, v)]
  | (k, w) :: rest, key, v =>
    if k = key then (key, v) :: rest else (k, w) :: astore rest key v

/-- `ExecutionTracker._get_key`. -/
def getKey (execution_id : String) : String := "execution:" ++ execution_id

/-- `ExecutionTracker.get_execution`: GET + deserialize, `none` on a miss
(missing or expired key). -/
def get_execution (s : Store) (execution_id : String) : Option ExecutionRecord :=
  alookup s.records (getKey execution_id)

/-- Write a record back under its key (`SETEX key 86400 serialized`). -/
def putRecord (s : Store) (execution_id : String) (r : ExecutionRecord) : Store :=
  { s with records := astore s.records (getKey execution_id) r }

/-- `ExecutionTracker.start_execution`: build a fresh RUNNING record, SETEX
it, and ZADD its id into `executions:list` with the creation timestamp as
score.  The fresh uuid4 and the two `utcnow()` calls are passed explicitly
as `execution_id` and `now`. -/
def start_execution (s : Store) (intent_type : String)
    (parameters : List (String × Value)) (execution_id : String) (now : Nat) : String × Store :=
  let record : ExecutionRecord :=
    { execution_id := execution_id
      intent_type := intent_type
      status := ExecutionStatus.RUNNING
      started_at := now
      parameters := parameters
      retry_count := 0
      agents := [] }
  let s1 := putRecord s execution_id record
  (execution_id, { s1 with index := astore s1.index execution_id now })

/-- Output order of Redis ZREVRANGE: higher score first; equal scores are
returned in reverse lexicographic member order. -/
def zBefore (a b : String × Nat) : Prop :=
  b.2 < a.2 ∨ (a.2 = b.2 ∧ b.1 ≤ a.1)

instance : DecidableRel zBefore := fun a b => by
  unfold zBefore; infer_instance

/-- Insert into a list already in ZREVRANGE order. -/
def zInsert (a : String × Nat) : List (String × Nat) → List (String × Nat)
  | [] => [a]
  | b :: rest => if zBefore a b then a :: b :: rest else b :: zInsert a rest

/-- Sort member/score pairs into ZREVRANGE output order. -/
def zSortDesc : List (String × Nat) → List (String × Nat)
  | [] => []
  | a :: rest => zInsert a (zSortDesc rest)

/-- Number of elements `ZREVRANGE key 0 stop` returns from a set of `len`
elements: a negative `stop` counts from the end (`-1` is the last element,
so `stop = -1` yields the whole set), a non-negative `stop` is an inclusive
index. -/
def zrevrangeTake (len : Nat) (stop : Int) : Nat :=
  if stop < 0 then ((len : Int) + stop + 1).toNat else stop.toNat + 1

/-- `ZREVRANGE executions:list 0 stop`: member ids, highest score first. -/
def zrevrange (idx : List (String × Nat)) (stop : Int) : List String :=
  let sorted := zSortDesc idx
  (sorted.take (zrevrangeTake sorted.length stop)).map Prod.fst

/-- `ExecutionTracker.list_executions`: ids from
`zrevrange('executions:list', 0, limit - 1)`, then a GET per id, silently
dropping ids whose record is gone. -/
def list_executions (s : Store) (limit : Nat := 50) : List ExecutionRecord :=
  (zrevrange s.index ((limit : Int) - 1)).filterMap (get_execution s)

/-- `ExecutionTracker.update_status`: overwrite `status` if the record
exists (no guard on the current status). -/
def update_status (s : Store) (execution_id : String) (status : ExecutionStatus) : Store :=
  match get_execution s execution_id with
  | none => s
  | some record => putRecord s execution_id { record with status := status }

/-- `ExecutionTracker.start_agent`: append a RUNNING `AgentExecution` if the
record exists. -/
def start_agent (s : Store) (execution_id : String) (agent_name : String) (now : Nat) : Store :=
  match get_execution s execution_id with
  | none => s
  | some record =>
    let agent_exec : AgentExecution :=
      { agent_name := agent_name
        status := ExecutionStatus.RUNNING
        started_at := now }
    putRecord s execution_id { record with agents := record.agents ++ [agent_exec] }

/-- The body of `complete_agent`'s `for ... break` loop: transition the
first agent in the list whose name matches and whose status is RUNNING,
leave everything else untouched. -/
def completeAgentsLoop (agent_name : String) (success : Bool) (result : Option Value)
    (error : Option String) (now : Nat) : List AgentExecution → List AgentExecution
  | [] => []
  | a :: rest =>
    if a.agent_name = agent_name ∧ a.status = ExecutionStatus.RUNNING then
      { a with
        completed_at := some now
        duration_seconds := some ((now : Int) - (a.started_at : Int))
        status := if success then ExecutionStatus.SUCCESS else ExecutionStatus.FAILED
        result := result
        error := error } :: rest
    else a :: completeAgentsLoop agent_name success result error now rest

/-- `ExecutionTracker.complete_agent`: read-modify-write of the whole
record; the loop mutates the first matching RUNNING agent (then breaks) and
the record is written back unconditionally. -/
def complete_agent (s : Store) (execution_id : String) (agent_name : String)
    (success : Bool) (result : Option Value := none) (error : Option String := none)
    (now : Nat := 0) : Store :=
  match get_execution s execution_id with
  | none => s
  | some record =>
    putRecord s execution_id
      { record with agents := completeAgentsLoop agent_name success result error now record.agents }

/-- The pure record-update part of `complete_execution` (the state the
record is left in, given the record that was read). -/
def completeRecord (record : ExecutionRecord) (success : Bool) (result : Option Value)
    (error : Option String) (now : Nat) : ExecutionRecord :=
  { record with
    completed_at := some now
    duration_seconds := some ((now : Int) - (record.started_at : Int))
    status := if success then ExecutionStatus.SUCCESS else ExecutionStatus.FAILED
    result := result
    error_message := error }

/-- `ExecutionTracker.complete_execution`: if the record exists (whatever
its current status), overwrite `completed_at`, `duration_seconds`,
`status`, `result` and `error_message`; no-op on a miss. -/
def complete_execution (s : Store) (execution_id : String) (success : Bool)
    (result : Option Value := none) (error : Option String := none)
    (now : Nat := 0) : Store :=
  match get_execution s execution_id with
  | none => s
  | some record => putRecord s execution_id (completeRecord record success result error now)

/-! ## The retry executor (`BaseAgent.run`, base_agent.py)

A unit of work is modelled as a function from the (1-based) attempt number
to either a raised exception message (`.error`) or the returned data
(`.ok`); `run` wraps it in the bounded retry loop.  Wall-clock metadata
(`executed_at`, `duration_seconds`) is real time and is not modelled; the
`retries` counter, which the claims are about, is.  Alongside the result we
count how many attempts were actually made. -/

/-- The result dict returned by `BaseAgent.run` (statuses are the source's
lowercase strings `"success"` / `"failed"`). -/
structure RunResult where
  agent : String
  status : String
  data : Option Value
  retries : Nat
  error : Option String
deriving DecidableEq

/-- The `for attempt in range(1, max_retries + 1)` loop of `BaseAgent.run`,
by remaining iterations (`fuel`).  When the loop ends without a `return`,
the all-retries-exhausted result is built with `retries = max_retries - 1`
and the last exception's message.  The second component counts the attempts
made. -/
def runLoop (f : Nat → Except String Value) (name : String) (max_retries : Nat) :
    Nat → Nat → Option String → RunResult × Nat
  | 0, _, last_error =>
    ({ agent := name, status := "failed", data := none,
       retries := max_retries - 1, error := last_error }, 0)
  | fuel + 1, attempt, _last_error =>
    match f attempt with
    | .ok d =>
      ({ agent := name, status := "success", data := some d,
         retries := attempt - 1, error := none }, 1)
    | .error e =>
      let r := runLoop f name max_retries fuel (attempt + 1) (some e)
      (r.1, r.2 + 1)

/-- `BaseAgent.run`: up to `max_retries` attempts (source default 3),
starting from attempt 1 with no recorded error. -/
def BaseAgent.run (f : Nat → Except String Value) (name : String)
    (max_retries : Nat := 3) : RunResult × Nat :=
  runLoop f name max_retries max_retries 1 none

/-- Python truthiness of a parameter value, as tested by
`not parameters[field]` in `validate_parameters`. -/
def truthy : Value → Bool
  | .vStr s => !s.isEmpty
  | .vNum q => q != 0
  | .vBool b => b
  | .vNull => false
  | .vObj l => !l.isEmpty

/-- `BaseAgent.validate_parameters`: raise `ValueError` (here `.error`) on
the first required field that is absent or falsy. -/
def validate_parameters (parameters : List (String × Value)) :
    List String → Except String Unit
  | [] => .ok ()
  | field :: rest =>
    match alookup parameters field with
    | none => .error ("Missing required parameter: " ++ field)
    | some v =>
      if truthy v then validate_parameters parameters rest
      else .error ("Missing required parameter: " ++ field)

/-! ## The analyze-stock pipeline (`AnalyzeStockIntent.execute` and
`analyze_stock_task`, analyze_stock.py)

The four agents are simulated inline: `execute` appends a RUNNING step,
sleeps, and completes the step with `success=True` and a hard-coded mock
payload — it never calls `BaseAgent.run` and has no failure branch.  The
abstract clock advances by one per tracker call. -/

/-- Python's `str.replace(pat, rep)` on char lists (leftmost,
non-overlapping, replace all), fuelled by the input length so that it stays
structurally recursive. -/
def replaceChars (pat rep : List Char) : Nat → List Char → List Char
  | _, [] => []
  | 0, l => l
  | fuel + 1, c :: rest =>
    if pat ≠ [] ∧ pat.isPrefixOf (c :: rest) then
      rep ++ replaceChars pat rep fuel ((c :: rest).drop pat.length)
    else c :: replaceChars pat rep fuel rest

/-- `s.replace(pat, rep)` (as used for `agent_name.replace("_agent", "")`). -/
def pyReplace (s pat rep : String) : String :=
  String.mk (replaceChars pat.data rep.data s.data.length s.data)

/-- The pipeline's fixed agent list (`self.agents`). -/
def analyzeAgents : List String :=
  ["technical_agent", "fundamental_agent", "news_agent", "aggregation_agent"]

/-- The `if agent_name == ... / elif ... / else` chain generating the mock
result for each agent. -/
def mockAgentResult (agent_name : String) : Value :=
  if agent_name = "technical_agent" then
    .vObj [("rsi", .vNum 65.5), ("macd", .vStr "bullish"),
           ("trend", .vStr "uptrend"), ("score", .vNum 7.5)]
  else if agent_name = "fundamental_agent" then
    .vObj [("pe_ratio", .vNum 28.5), ("revenue_growth", .vNum 15.2),
           ("profit_margin", .vNum 25.8), ("score", .vNum 8.0)]
  else if agent_name = "news_agent" then
    .vObj [("sentiment", .vStr "positive"), ("sentiment_score", .vNum 0.75),
           ("recent_news_count", .vNum 12)]
  else
    .vObj [("recommendation", .vStr "BUY"), ("confidence", .vNum 0.82),
           ("overall_score", .vNum 7.75)]

/-- The `for agent_name in self.agents` loop: `start_agent`, simulate work,
`complete_agent(..., True, result)`, accumulate
`results[agent_name.replace("_agent", "")] = result`. -/
def runAgentsLoop (execution_id : String) :
    Store → Nat → List String → Store × Nat × List (String × Value)
  | s, clock, [] => (s, clock, [])
  | s, clock, name :: rest =>
    let s1 := start_agent s execution_id name clock
    let result := mockAgentResult name
    let s2 := complete_agent s1 execution_id name true (some result) none (clock + 1)
    let rec' := runAgentsLoop execution_id s2 (clock + 2) rest
    (rec'.1, rec'.2.1, (pyReplace name "_agent" "", result) :: rec'.2.2)

/-- Field lookup on an object payload (Python dict indexing). -/
def objGet (v : Value) (k : String) : Option Value :=
  match v with
  | .vObj fields => alookup fields k
  | _ => none

/-- `AnalyzeStockIntent.execute`: reads the symbol with default
`"UNKNOWN"`, runs the four simulated agents, and assembles the final
report from `results` (those lookups always hit, so the `.getD` defaults
are never taken).  `analyzed_at` is `utcnow()` — the abstract clock value.
Returns the report, the store after the step writes, and the clock. -/
def intentExecute (s : Store) (execution_id : String)
    (parameters : List (String × Value)) (clock : Nat) : Value × Store × Nat :=
  let symbol := (alookup parameters "symbol").getD (.vStr "UNKNOWN")
  let r := runAgentsLoop execution_id s clock analyzeAgents
  let results := r.2.2
  let agg := (alookup results "aggregation").getD (.vObj [])
  (.vObj [
      ("symbol", symbol),
      ("analyzed_at", .vNum (r.2.1 : Rat)),
      ("recommendation", (objGet agg "recommendation").getD .vNull),
      ("overall_score", (objGet agg "overall_score").getD .vNull),
      ("confidence", (objGet agg "confidence").getD .vNull),
      ("technical", (alookup results "technical").getD (.vObj [])),
      ("fundamental", (alookup results "fundamental").getD (.vObj [])),
      ("news_sentiment", (alookup results "news").getD (.vObj []))],
   r.1, r.2.1)

/-- `analyze_stock_task`: run the intent, then
`complete_execution(execution_id, True, result)`.  The `except` branch
(`complete_execution(..., False, error=...)`) is unreachable in the model
because `intentExecute` is total, exactly as no exception escapes the
simulated pipeline in the source. -/
def analyze_stock_task (s : Store) (execution_id : String)
    (parameters : List (String × Value)) (clock : Nat) : Value × Store :=
  let r := intentExecute s execution_id parameters clock
  (r.1, complete_execution r.2.1 execution_id true (some r.1) none r.2.2)

/-! ## The dispatch endpoint (`execute_intent`, api/v1/intents.py) -/

/-- The job types of the `IntentType` enum. -/
inductive IntentType where
  | analyze_stock | compare_stocks | market_scan
deriving DecidableEq

/-- `IntentType.value` (the enum's string value). -/
def IntentType.value : IntentType → String
  | .analyze_stock => "analyze_stock"
  | .compare_stocks => "compare_stocks"
  | .market_scan => "market_scan"

/-- Modelled from the spec: the `IntentType` enum lives in
`models/intent.py`, which is not among the sources; FastAPI/pydantic
validates `IntentRequest.intent_type` against it before the handler body
runs, so an unknown job type is rejected synchronously.  The member names
are those listed by `/intents/types` and referenced by `intents.py`. -/
def parseIntentType (s : String) : Option IntentType :=
  if s = "analyze_stock" then some .analyze_stock
  else if s = "compare_stocks" then some .compare_stocks
  else if s = "market_scan" then some .market_scan
  else none

/-- The response model of `/intents/execute`. -/
structure IntentResponse where
  execution_id : String
  intent_type : String
  status : String
  message : String
deriving DecidableEq

/-- The `/intents/execute` handler: request validation (`parseIntentType`)
runs before the handler body; on failure the error goes back to the caller
with the store untouched.  On success `start_execution` creates the record,
the background task is scheduled (its later effects are not part of the
synchronous response), and `{execution_id, status=RUNNING}` is returned. -/
def execute_intent (s : Store) (raw_intent_type : String)
    (parameters : List (String × Value)) (fresh_id : String) (now : Nat) :
    Except String IntentResponse × Store :=
  match parseIntentType raw_intent_type with
  | none => (.error ("Unknown intent type: " ++ raw_intent_type), s)
  | some t =>
    let r := start_execution s t.value parameters fresh_id now
    (.ok { execution_id := r.1
           intent_type := t.value
           status := "RUNNING"
           message := "Intent " ++ t.value ++ " started successfully" }, r.2)

/-! ## Concrete stores used by individual claims -/

/-- A store holding one freshly created RUNNING execution `"e1"`. -/
def oneRecStore : Store :=
  (start_execution ⟨[], []⟩ "analyze_stock" [("symbol", .vStr "AAPL")] "e1" 0).2

/-- `oneRecStore` after two steps named `"dup"` were both started (the
store does not prevent two RUNNING steps with the same name). -/
def dupStepStore : Store :=
  start_agent (start_agent oneRecStore "e1" "dup" 1) "e1" "dup" 2

/-- `oneRecStore` after two steps `"a"` (started 1) and `"b"` (started 2). -/
def twoStepStore : Store :=
  start_agent (start_agent oneRecStore "e1" "a" 1) "e1" "b" 2

/-- A store where id `"gone"` is still in the recency index but its record
has expired out of the keyed store, while `"a"`'s record survives. -/
def expiredStore : Store :=
  ⟨[("execution:a",
     { execution_id := "a", intent_type := "analyze_stock",
       status := ExecutionStatus.RUNNING, started_at := 5, parameters := [] })],
   [("a", 5), ("gone", 9)]⟩

/-- A unit of work shaped like the agents' `execute` methods
(e.g. `FundamentalAgent.execute`): it calls
`validate_parameters(parameters, ["symbol"])` first, so on invalid input
every attempt raises the validation `ValueError`; the analysis body behind
the validation is irrelevant to the validation claims and is abstracted to
an opaque success payload. -/
def validatingUnit (parameters : List (String × Value)) : Nat → Except String Value :=
  fun _ =>
    match validate_parameters parameters ["symbol"] with
    | .error e => .error e
    | .ok _ => .ok (.vObj [("analysis", .vStr "done")])

/-- The interleaving `GET₁; GET₂; SETEX₁; SETEX₂` of two concurrent
`complete_agent(id, n1, success=True, res1)` and
`complete_agent(id, n2, success=True, res2)` calls: each call's two phases
are exactly the corresponding pieces of `complete_agent`'s body, but both
GETs happen before either SETEX. -/
def lostUpdateSchedule (s : Store) (id : String) (n1 n2 : String)
    (res1 res2 : Option Value) (t1 t2 : Nat) : Store :=
  match get_execution s id, get_execution s id with
  | some r1, some r2 =>
    let w1 := putRecord s id
      { r1 with agents := completeAgentsLoop n1 true res1 none t1 r1.agents }
    putRecord w1 id
      { r2 with agents := completeAgentsLoop n2 true res2 none t2 r2.agents }
  | _, _ => s

/-- Well-formedness of a store, as established by the tracker's own
operations: every stored record sits under the key derived from its own
`execution_id` and its creation timestamp is its score in the recency
index, and the recency index (a Redis sorted set) has no duplicate
members. -/
def StoreWF (s : Store) : Prop :=
  (∀ p ∈ s.records, p.1 = getKey p.2.execution_id ∧
     alookup s.index p.2.execution_id = some p.2.started_at) ∧
  (s.index.map Prod.fst).Nodup

/-! ## Association-list lemmas -/

theorem alookup_astore_self {α : Type} (l : List (String × α)) (k : String) (v : α) :
    alookup (astore l k v) k = some v := by
  induction l with
  | nil => simp [astore, alookup]
  | cons p rest ih =>
    by_cases h : p.1 = k
    · simp [astore, h, alookup]
    · simp [astore, h, alookup, ih]

theorem astore_astore {α : Type} (l : List (String × α)) (k : String) (v w : α) :
    astore (astore l k v) k w = astore l k w := by
  induction l with
  | nil => simp [astore]
  | cons p rest ih =>
    by_cases h : p.1 = k
    · simp [astore, h]
    · simp [astore, h, ih]

theorem astore_of_alookup {α : Type} (l : List (String × α)) (k : String) (v : α)
    (h : alookup l k = some v) : astore l k v = l := by
  induction l with
  | nil => simp [alookup] at h
  | cons p rest ih =>
    by_cases hk : p.1 = k
    · obtain ⟨k', v'⟩ := p
      simp only at hk
      subst hk
      simp [alookup] at h
      simp [astore, h]
    · simp [alookup, hk] at h
      simp [astore, hk, ih h]

theorem alookup_mem {α : Type} {l : List (String × α)} {k : String} {v : α}
    (h : alookup l k = some v) : (k, v) ∈ l := by
  induction l with
  | nil => simp [alookup] at h
  | cons p rest ih =>
    by_cases hk : p.1 = k
    · obtain ⟨k', v'⟩ := p
      simp only at hk
      subst hk
      simp [alookup] at h
      simp [h]
    · simp [alookup, hk] at h
      exact List.mem_cons_of_mem _ (ih h)

theorem alookup_of_mem_nodup {α : Type} {l : List (String × α)} {p : String × α}
    (hnd : (l.map Prod.fst).Nodup) (hmem : p ∈ l) : alookup l p.1 = some p.2 := by
  induction l with
  | nil => simp at hmem
  | cons q rest ih =>
    simp only [List.map_cons, List.nodup_cons] at hnd
    rcases List.mem_cons.mp hmem with h | h
    · subst h; simp [alookup]
    · have hne : q.1 ≠ p.1 := by
        intro hEq
        exact hnd.1 (hEq ▸ List.mem_map_of_mem Prod.fst h)
      simp [alookup, hne]
      exact ih hnd.2 h

/-! ## C1 — terminal-status transitions and `complete_execution` idempotence -/

/--
C1 (counterexample): the claim says a second `complete_execution` on the
same id is a no-op that leaves the record exactly as the first call wrote
it.  On the code there is no terminal-state guard: completing `"e1"` with
`success=True` and then again with `success=False` flips the record from
SUCCESS to FAILED, so the record written by the first call does not
survive the second.
-/
theorem claim_c1_counterexample :
    (get_execution (complete_execution oneRecStore "e1" true (some (.vObj [])) none 5)
        "e1").map ExecutionRecord.status = some ExecutionStatus.SUCCESS ∧
    (get_execution (complete_execution
        (complete_execution oneRecStore "e1" true (some (.vObj [])) none 5)
        "e1" false none (some "boom") 9) "e1").map ExecutionRecord.status =
      some ExecutionStatus.FAILED ∧
    get_execution (complete_execution
        (complete_execution oneRecStore "e1" true (some (.vObj [])) none 5)
        "e1" false none (some "boom") 9) "e1" ≠
      get_execution (complete_execution oneRecStore "e1" true (some (.vObj [])) none 5)
        "e1" := by
  decide

/--
C1 (amended): `complete_execution` on an unknown id is a safe no-op, but a
second call on an existing id is not: it overwrites the terminal fields
with its own arguments — the store after two completions is exactly the
store after the second completion alone (last call wins, including a
SUCCESS→FAILED overwrite), not the state written by the first call.
-/
theorem claim_c1_amended :
    (∀ (s : Store) (id : String) (b1 : Bool) (r1 : Option Value) (e1 : Option String)
       (t1 : Nat) (b2 : Bool) (r2 : Option Value) (e2 : Option String) (t2 : Nat),
       complete_execution (complete_execution s id b1 r1 e1 t1) id b2 r2 e2 t2 =
         complete_execution s id b2 r2 e2 t2) ∧
    (∀ (s : Store) (id : String) (b : Bool) (r : Option Value) (e : Option String) (t : Nat),
       get_execution s id = none → complete_execution s id b r e t = s) := by
  constructor
  · intro s id b1 r1 e1 t1 b2 r2 e2 t2
    unfold complete_execution
    cases hget : get_execution s id with
    | none => simp [hget]
    | some rec =>
      have hget2 : get_execution (putRecord s id (completeRecord rec b1 r1 e1 t1)) id =
          some (completeRecord rec b1 r1 e1 t1) := by
        simp [get_execution, putRecord, alookup_astore_self]
      simp only [hget, hget2]
      have hrec : completeRecord (completeRecord rec b1 r1 e1 t1) b2 r2 e2 t2 =
          completeRecord rec b2 r2 e2 t2 := by
        simp [completeRecord]
      rw [hrec]
      simp [putRecord, astore_astore]
  · intro s id b r e t h
    unfold complete_execution
    simp [h]

/-- C1 (witness): both parts of the amended theorem at concrete inputs. -/
theorem claim_c1_witness :
    complete_execution (complete_execution oneRecStore "e1" true (some (.vObj [])) none 5)
        "e1" false none (some "boom") 9 =
      complete_execution oneRecStore "e1" false none (some "boom") 9 ∧
    complete_execution oneRecStore "missing" true none none 3 = oneRecStore :=
  ⟨claim_c1_amended.1 oneRecStore "e1" true (some (.vObj [])) none 5 false none (some "boom") 9,
   claim_c1_amended.2 oneRecStore "missing" true none none 3 (by decide)⟩

/-! ## C6 — unknown job types are rejected before any record is created -/

/--
C6: a job submission whose type is not a member of the `IntentType` enum is
rejected synchronously with an error and the store is returned untouched,
so no `ExecutionRecord` is created and a subsequent `list` shows no new
entry.
-/
theorem claim_c6 (s : Store) (raw : String) (parameters : List (String × Value))
    (fresh_id : String) (now : Nat) (h : parseIntentType raw = none) :
    execute_intent s raw parameters fresh_id now =
      (.error ("Unknown intent type: " ++ raw), s) ∧
    ∀ limit, list_executions (execute_intent s raw parameters fresh_id now).2 limit =
      list_executions s limit := by
  unfold execute_intent
  rw [h]
  exact ⟨rfl, fun _ => rfl⟩

/-- C6 (witness): submitting `"forecast_universe"` against the one-record
store is rejected and the store (hence any listing) is unchanged. -/
theorem claim_c6_witness :
    execute_intent oneRecStore "forecast_universe" [("symbol", .vStr "AAPL")] "e2" 7 =
      (.error ("Unknown intent type: " ++ "forecast_universe"), oneRecStore) ∧
    ∀ limit,
      list_executions
        (execute_intent oneRecStore "forecast_universe"
          [("symbol", .vStr "AAPL")] "e2" 7).2 limit =
      list_executions oneRecStore limit :=
  claim_c6 oneRecStore "forecast_universe" [("symbol", .vStr "AAPL")] "e2" 7 (by decide)

/-! ## Retry-loop lemmas for `BaseAgent.run` -/

/-- If attempts `attempt .. N-1` fail and attempt `N` succeeds (with `N`
inside the remaining fuel), the loop returns the success envelope for
attempt `N` after making `N - attempt + 1` further attempts. -/
theorem runLoop_first_success (f : Nat → Except String Value) (name : String)
    (max_retries : Nat) (N : Nat) (d : Value) :
    ∀ (fuel attempt : Nat) (last_error : Option String),
    attempt ≤ N → N < attempt + fuel →
    (∀ k, attempt ≤ k → k < N → ∃ e, f k = Except.error e) →
    f N = Except.ok d →
    runLoop f name max_retries fuel attempt last_error =
      ({ agent := name, status := "success", data := some d,
         retries := N - 1, error := none }, N - attempt + 1) := by
  intro fuel
  induction fuel with
  | zero => intro attempt last_error h1 h2 _ _; omega
  | succ n ih =>
    intro attempt last_error h1 h2 hfail hsucc
    by_cases hN : attempt = N
    · subst hN
      simp [runLoop, hsucc]
    · obtain ⟨e, he⟩ := hfail attempt (le_refl _) (by omega)
      have := ih (attempt + 1) (some e) (by omega) (by omega)
        (fun k hk1 hk2 => hfail k (by omega) hk2) hsucc
      simp only [runLoop, he, this, Prod.mk.injEq]
      exact ⟨trivial, by omega⟩

/-- Unfolding equation for `runLoop` at positive fuel. -/
theorem runLoop_succ (f : Nat → Except String Value) (name : String)
    (max_retries fuel attempt : Nat) (last_error : Option String) :
    runLoop f name max_retries (fuel + 1) attempt last_error =
      match f attempt with
      | Except.ok d =>
        ({ agent := name, status := "success", data := some d,
           retries := attempt - 1, error := none }, 1)
      | Except.error e =>
        ((runLoop f name max_retries fuel (attempt + 1) (some e)).1,
         (runLoop f name max_retries fuel (attempt + 1) (some e)).2 + 1) := rfl

/-- If every attempt in the remaining window fails (messages given by
`err`), the loop exhausts its fuel and returns the FAILED envelope carrying
the last attempt's message, after making `fuel` attempts. -/
theorem runLoop_all_fail (f : Nat → Except String Value) (name : String)
    (max_retries : Nat) (err : Nat → String) :
    ∀ (fuel attempt : Nat) (last_error : Option String),
    1 ≤ fuel → attempt + fuel = max_retries + 1 →
    (∀ k, attempt ≤ k → k ≤ max_retries → f k = Except.error (err k)) →
    runLoop f name max_retries fuel attempt last_error =
      ({ agent := name, status := "failed", data := none,
         retries := max_retries - 1, error := some (err max_retries) }, fuel) := by
  intro fuel
  induction fuel with
  | zero => intro attempt last_error h1 _ _; omega
  | succ n ih =>
    intro attempt last_error _ h2 hfail
    have hatt : f attempt = Except.error (err attempt) :=
      hfail attempt (le_refl _) (by omega)
    cases n with
    | zero =>
      have : attempt = max_retries := by omega
      subst this
      rw [runLoop_succ, hatt]
      rfl
    | succ m =>
      have hrec := ih (attempt + 1) (some (err attempt)) (by omega) (by omega)
        (fun k hk1 hk2 => hfail k (by omega) hk2)
      rw [runLoop_succ, hatt]
      dsimp only
      rw [hrec]

/-! ## C3 — first success stops the retry loop -/

/--
C3: if the unit fails on attempts `1 .. N-1` and succeeds on attempt `N`
with payload `d` (`1 ≤ N ≤ max_retries`), `BaseAgent.run` returns the
success envelope — status `"success"`, `data = d`, `error = None`,
`retries = N - 1` — and makes exactly `N` attempts, i.e. none after the
first success.
-/
theorem claim_c3 (f : Nat → Except String Value) (name : String)
    (max_retries N : Nat) (d : Value)
    (h1 : 1 ≤ N) (h2 : N ≤ max_retries)
    (hfail : ∀ k, 1 ≤ k → k < N → ∃ e, f k = Except.error e)
    (hsucc : f N = Except.ok d) :
    BaseAgent.run f name max_retries =
      ({ agent := name, status := "success", data := some d,
         retries := N - 1, error := none }, N) := by
  unfold BaseAgent.run
  have := runLoop_first_success f name max_retries N d max_retries 1 none
    h1 (by omega) hfail hsucc
  rw [this]
  congr 1
  omega

/-- C3 (witness): a unit failing once then succeeding on attempt 2, under
the default `max_retries = 3`: success envelope with `retries = 1` and
exactly 2 attempts made. -/
theorem claim_c3_witness :
    BaseAgent.run
      (fun k => if k < 2 then Except.error "transient" else Except.ok (.vStr "payload"))
      "technical_agent" 3 =
      ({ agent := "technical_agent", status := "success", data := some (.vStr "payload"),
         retries := 1, error := none }, 2) :=
  claim_c3 (fun k => if k < 2 then Except.error "transient" else Except.ok (.vStr "payload"))
    "technical_agent" 3 2 (.vStr "payload") (by decide) (by decide)
    (fun k hk1 hk2 => ⟨"transient", by
      have : k = 1 := by omega
      subst this
      rfl⟩)
    rfl

/-! ## C4 — exhausted retries surface the last attempt's message -/

/--
C4: for a unit that fails on every attempt (attempt `k` raising message
`err k`), `BaseAgent.run` makes exactly `max_retries` attempts and returns
the FAILED envelope with `data = None` and `error` equal to the **last**
attempt's message `err max_retries`; no earlier message appears in the
envelope.
-/
theorem claim_c4 (f : Nat → Except String Value) (name : String)
    (max_retries : Nat) (err : Nat → String)
    (h1 : 1 ≤ max_retries)
    (hfail : ∀ k, 1 ≤ k → k ≤ max_retries → f k = Except.error (err k)) :
    BaseAgent.run f name max_retries =
      ({ agent := name, status := "failed", data := none,
         retries := max_retries - 1, error := some (err max_retries) }, max_retries) :=
  runLoop_all_fail f name max_retries err max_retries 1 none h1 (by omega) hfail

/-- C4 (witness): a unit whose attempt `k` fails with message `"boom k"`,
under the default `max_retries = 3`: 3 attempts, FAILED, and only
attempt 3's message surfaced. -/
theorem claim_c4_witness :
    BaseAgent.run (fun k => Except.error ("boom " ++ toString k)) "news_agent" 3 =
      ({ agent := "news_agent", status := "failed", data := none,
         retries := 2, error := some "boom 3" }, 3) :=
  claim_c4 (fun k => Except.error ("boom " ++ toString k)) "news_agent" 3
    (fun k => "boom " ++ toString k) (by decide) (fun _ _ _ => rfl)

/-! ## C5 — validation errors and the retry loop -/

/--
C5 (counterexample): the claim says a validation error raised by
`validate_parameters` inside the unit never enters the retry loop.  But
`BaseAgent.run` catches every exception alike: with empty parameters the
unit raises `"Missing required parameter: symbol"` on each attempt and the
executor re-attempts it — 3 attempts are made (not 1), refuting "does not
re-attempt the unit after the validation failure".
-/
theorem claim_c5_counterexample :
    (BaseAgent.run (validatingUnit []) "fundamental_agent" 3).2 = 3 ∧
    (BaseAgent.run (validatingUnit []) "fundamental_agent" 3).2 ≠ 1 ∧
    (BaseAgent.run (validatingUnit []) "fundamental_agent" 3).1.error =
      some "Missing required parameter: symbol" := by
  decide

/--
C5 (amended): a validation error is **not** surfaced immediately: it is
caught by the same retry loop as any other exception, so the executor
re-attempts the unit until `max_retries` attempts are exhausted and only
then returns the FAILED envelope carrying the validation message.
-/
theorem claim_c5_amended (parameters : List (String × Value)) (name : String)
    (max_retries : Nat) (e : String)
    (h1 : 1 ≤ max_retries)
    (hval : validate_parameters parameters ["symbol"] = Except.error e) :
    BaseAgent.run (validatingUnit parameters) name max_retries =
      ({ agent := name, status := "failed", data := none,
         retries := max_retries - 1, error := some e }, max_retries) :=
  runLoop_all_fail (validatingUnit parameters) name max_retries (fun _ => e)
    max_retries 1 none h1 (by omega)
    (fun k _ _ => by simp [validatingUnit, hval])

/-- C5 (witness): the amended claim at empty parameters with the default
`max_retries = 3`. -/
theorem claim_c5_witness :
    BaseAgent.run (validatingUnit []) "fundamental_agent" 3 =
      ({ agent := "fundamental_agent", status := "failed", data := none,
         retries := 2, error := some "Missing required parameter: symbol" }, 3) :=
  claim_c5_amended [] "fundamental_agent" 3 "Missing required parameter: symbol"
    (by decide) rfl

/-! ## C7 — which RUNNING step `complete_step` transitions -/

/-- If no agent in the list is a RUNNING agent with the target name, the
completion loop leaves the list unchanged. -/
theorem completeAgentsLoop_no_match (name : String) (b : Bool) (res : Option Value)
    (err : Option String) (t : Nat) :
    ∀ l : List AgentExecution,
    (∀ a ∈ l, ¬(a.agent_name = name ∧ a.status = ExecutionStatus.RUNNING)) →
    completeAgentsLoop name b res err t l = l := by
  intro l
  induction l with
  | nil => intro _; rfl
  | cons a rest ih =>
    intro h
    have ha := h a (List.mem_cons_self a rest)
    simp only [completeAgentsLoop, if_neg ha]
    rw [ih (fun x hx => h x (List.mem_cons_of_mem a hx))]

/-- The completion loop transitions exactly the first RUNNING agent with
the target name and leaves everything before and after it untouched. -/
theorem completeAgentsLoop_first_match (name : String) (b : Bool) (res : Option Value)
    (err : Option String) (t : Nat) (a : AgentExecution) (post : List AgentExecution) :
    ∀ pre : List AgentExecution,
    (∀ x ∈ pre, ¬(x.agent_name = name ∧ x.status = ExecutionStatus.RUNNING)) →
    a.agent_name = name → a.status = ExecutionStatus.RUNNING →
    completeAgentsLoop name b res err t (pre ++ a :: post) =
      pre ++ ({ a with
        completed_at := some t
        duration_seconds := some ((t : Int) - (a.started_at : Int))
        status := if b then ExecutionStatus.SUCCESS else ExecutionStatus.FAILED
        result := res
        error := err } :: post) := by
  intro pre
  induction pre with
  | nil =>
    intro _ hname hrun
    simp [completeAgentsLoop, hname, hrun]
  | cons x rest ih =>
    intro h hname hrun
    have hx := h x (List.mem_cons_self x rest)
    simp only [List.cons_append, completeAgentsLoop, if_neg hx, List.append_eq]
    rw [ih (fun y hy => h y (List.mem_cons_of_mem x hy)) hname hrun]

/--
C7 (counterexample): the claim says `complete_step` transitions the **most
recent** RUNNING step with the given name.  With two RUNNING steps both
named `"dup"` (started at times 1 and 2), the loop transitions the
**first-appended** one (started at 1) and leaves the most recent one
(started at 2) RUNNING and uncompleted.
-/
theorem claim_c7_counterexample :
    (get_execution (complete_agent dupStepStore "e1" "dup" true (some (.vObj [])) none 9)
        "e1").map (fun r => r.agents.map (fun a => (a.started_at, a.status, a.completed_at))) =
      some [(1, ExecutionStatus.SUCCESS, some 9), (2, ExecutionStatus.RUNNING, none)] := by
  decide

/--
C7 (amended): for every execution id and step name, `complete_step`
transitions the **earliest** (first-appended) step sub-record that is in
RUNNING state with that name to the terminal state (SUCCESS if success,
else FAILED, with `completed_at`, `duration` and the given `result`/`error`
set), leaving all other steps — including any more recent RUNNING duplicate
of the same name — untouched; and it is a safe no-op (store unchanged) when
the execution id is unknown or no RUNNING step with that name exists.
-/
theorem claim_c7_amended :
    (∀ (s : Store) (id name : String) (b : Bool) (res : Option Value)
       (err : Option String) (t : Nat),
       get_execution s id = none → complete_agent s id name b res err t = s) ∧
    (∀ (s : Store) (id name : String) (rec : ExecutionRecord) (b : Bool)
       (res : Option Value) (err : Option String) (t : Nat),
       get_execution s id = some rec →
       (∀ a ∈ rec.agents, ¬(a.agent_name = name ∧ a.status = ExecutionStatus.RUNNING)) →
       complete_agent s id name b res err t = s) ∧
    (∀ (s : Store) (id name : String) (rec : ExecutionRecord) (b : Bool)
       (res : Option Value) (err : Option String) (t : Nat)
       (pre : List AgentExecution) (a : AgentExecution) (post : List AgentExecution),
       get_execution s id = some rec →
       rec.agents = pre ++ a :: post →
       (∀ x ∈ pre, ¬(x.agent_name = name ∧ x.status = ExecutionStatus.RUNNING)) →
       a.agent_name = name → a.status = ExecutionStatus.RUNNING →
       complete_agent s id name b res err t =
         putRecord s id { rec with agents := pre ++ ({ a with
           completed_at := some t
           duration_seconds := some ((t : Int) - (a.started_at : Int))
           status := if b then ExecutionStatus.SUCCESS else ExecutionStatus.FAILED
           result := res
           error := err } :: post) }) := by
  refine ⟨?_, ?_, ?_⟩
  · intro s id name b res err t h
    unfold complete_agent
    simp [h]
  · intro s id name rec b res err t h hno
    unfold complete_agent
    simp only [h]
    rw [completeAgentsLoop_no_match name b res err t rec.agents hno]
    cases s with
    | mk records index =>
      simp only [putRecord]
      congr 1
      exact astore_of_alookup records (getKey id) rec h
  · intro s id name rec b res err t pre a post h hagents hpre hname hrun
    unfold complete_agent
    simp only [h]
    rw [hagents, completeAgentsLoop_first_match name b res err t a post pre hpre hname hrun]

/-- C7 (witness): the three parts of the amended theorem at concrete
inputs — unknown id; a record with no matching RUNNING step; and the
duplicate-name store, where the earliest `"dup"` step is completed. -/
theorem claim_c7_witness :
    complete_agent oneRecStore "missing" "dup" true none none 9 = oneRecStore ∧
    complete_agent oneRecStore "e1" "dup" true none none 9 = oneRecStore ∧
    complete_agent dupStepStore "e1" "dup" true (some (.vObj [])) none 9 =
      putRecord dupStepStore "e1"
        { execution_id := "e1", intent_type := "analyze_stock",
          status := ExecutionStatus.RUNNING, started_at := 0,
          parameters := [("symbol", .vStr "AAPL")],
          agents := [{ agent_name := "dup", status := ExecutionStatus.SUCCESS,
                       started_at := 1, completed_at := some 9,
                       duration_seconds := some 8, result := some (.vObj []),
                       error := none },
                     { agent_name := "dup", status := ExecutionStatus.RUNNING,
                       started_at := 2 }] } :=
  ⟨claim_c7_amended.1 oneRecStore "missing" "dup" true none none 9 (by decide),
   claim_c7_amended.2.1 oneRecStore "e1" "dup"
     { execution_id := "e1", intent_type := "analyze_stock",
       status := ExecutionStatus.RUNNING, started_at := 0,
       parameters := [("symbol", .vStr "AAPL")] }
     true none none 9 (by decide) (by decide),
   by
     have := claim_c7_amended.2.2 dupStepStore "e1" "dup"
       { execution_id := "e1", intent_type := "analyze_stock",
         status := ExecutionStatus.RUNNING, started_at := 0,
         parameters := [("symbol", .vStr "AAPL")],
         agents := [{ agent_name := "dup", status := ExecutionStatus.RUNNING,
                      started_at := 1 },
                    { agent_name := "dup", status := ExecutionStatus.RUNNING,
                      started_at := 2 }] }
       true (some (.vObj [])) none 9
       [] { agent_name := "dup", status := ExecutionStatus.RUNNING, started_at := 1 }
       [{ agent_name := "dup", status := ExecutionStatus.RUNNING, started_at := 2 }]
       (by decide) (by decide) (by decide) (by decide) (by decide)
     rw [this]
     rfl⟩

/-! ## C9 — concurrent `complete_step` calls

`complete_agent` performs its read-modify-write as **two** Redis commands:
a GET and then a SETEX.  Redis serializes the individual commands, but
nothing serializes the GET/SETEX pair of one call against another call on
the same key.  `lostUpdateSchedule` (defined with the model above) is the
legal interleaving in which two concurrent `complete_agent` calls both GET
before either SETEX. -/

/--
C9 (counterexample): the claim says two concurrent `complete_step` calls
for distinct step names on the same execution **always** leave both
completions in the final record.  In the interleaving where both calls GET
the record before either SETEXes it back, the second write is derived from
the pre-update record and overwrites the first: starting from a record with
RUNNING steps `"a"` and `"b"`, the final record has `"b"` completed but
`"a"` still RUNNING and uncompleted — the first update is lost.
-/
theorem claim_c9_counterexample :
    (get_execution
        (lostUpdateSchedule twoStepStore "e1" "a" "b"
          (some (.vStr "ra")) (some (.vStr "rb")) 5 6) "e1").map
      (fun r => r.agents.map fun a => (a.agent_name, a.status, a.completed_at)) =
      some [("a", ExecutionStatus.RUNNING, none),
            ("b", ExecutionStatus.SUCCESS, some 6)] := by
  decide

/--
C9 (amended): the store serializes only individual Redis commands, not
`complete_step`'s GET-then-SETEX read-modify-write, so the no-lost-update
guarantee holds only for serialized executions: when the two calls for the
two distinct step names run one after the other (in either order), the
final record contains both step completions.  (The interleaving in which
both calls read before either writes loses the first update, per the
counterexample.)
-/
theorem claim_c9_amended (s : Store) (id na nb : String)
    (rec : ExecutionRecord) (agA agB : AgentExecution)
    (b1 b2 : Bool) (r1 r2 : Option Value) (e1 e2 : Option String) (t1 t2 : Nat)
    (h : get_execution s id = some rec)
    (hagents : rec.agents = [agA, agB])
    (hA : agA.agent_name = na) (hRA : agA.status = ExecutionStatus.RUNNING)
    (hB : agB.agent_name = nb) (hRB : agB.status = ExecutionStatus.RUNNING)
    (hne : na ≠ nb) :
    get_execution
        (complete_agent (complete_agent s id na b1 r1 e1 t1) id nb b2 r2 e2 t2) id =
      some { rec with agents :=
        [{ agA with completed_at := some t1
                    duration_seconds := some ((t1 : Int) - (agA.started_at : Int))
                    status := if b1 then ExecutionStatus.SUCCESS else ExecutionStatus.FAILED
                    result := r1, error := e1 },
         { agB with completed_at := some t2
                    duration_seconds := some ((t2 : Int) - (agB.started_at : Int))
                    status := if b2 then ExecutionStatus.SUCCESS else ExecutionStatus.FAILED
                    result := r2, error := e2 }] } ∧
    get_execution
        (complete_agent (complete_agent s id nb b2 r2 e2 t2) id na b1 r1 e1 t1) id =
      some { rec with agents :=
        [{ agA with completed_at := some t1
                    duration_seconds := some ((t1 : Int) - (agA.started_at : Int))
                    status := if b1 then ExecutionStatus.SUCCESS else ExecutionStatus.FAILED
                    result := r1, error := e1 },
         { agB with completed_at := some t2
                    duration_seconds := some ((t2 : Int) - (agB.started_at : Int))
                    status := if b2 then ExecutionStatus.SUCCESS else ExecutionStatus.FAILED
                    result := r2, error := e2 }] } := by
  constructor
  · -- order: complete na first, then nb
    have step1 : complete_agent s id na b1 r1 e1 t1 =
        putRecord s id { rec with agents :=
          [{ agA with completed_at := some t1
                      duration_seconds := some ((t1 : Int) - (agA.started_at : Int))
                      status := if b1 then ExecutionStatus.SUCCESS else ExecutionStatus.FAILED
                      result := r1, error := e1 }, agB] } := by
      unfold complete_agent
      simp only [h]
      rw [hagents]
      have := completeAgentsLoop_first_match na b1 r1 e1 t1 agA [agB] []
        (by simp) hA hRA
      simp only [List.nil_append] at this
      rw [this]
    rw [step1]
    have hget1 : get_execution (putRecord s id { rec with agents :=
        [{ agA with completed_at := some t1
                    duration_seconds := some ((t1 : Int) - (agA.started_at : Int))
                    status := if b1 then ExecutionStatus.SUCCESS else ExecutionStatus.FAILED
                    result := r1, error := e1 }, agB] }) id =
        some { rec with agents :=
          [{ agA with completed_at := some t1
                      duration_seconds := some ((t1 : Int) - (agA.started_at : Int))
                      status := if b1 then ExecutionStatus.SUCCESS else ExecutionStatus.FAILED
                      result := r1, error := e1 }, agB] } := by
      simp [get_execution, putRecord, alookup_astore_self]
    unfold complete_agent
    simp only [hget1]
    have hloop := completeAgentsLoop_first_match nb b2 r2 e2 t2 agB []
      [{ agA with completed_at := some t1
                  duration_seconds := some ((t1 : Int) - (agA.started_at : Int))
                  status := if b1 then ExecutionStatus.SUCCESS else ExecutionStatus.FAILED
                  result := r1, error := e1 }]
      (by
        intro x hx
        rw [List.mem_singleton] at hx
        subst hx
        intro hcontra
        exact hne (hA.symm.trans hcontra.1))
      hB hRB
    simp only [List.singleton_append] at hloop
    rw [hloop]
    simp [get_execution, putRecord, alookup_astore_self]
  · -- order: complete nb first, then na
    have step1 : complete_agent s id nb b2 r2 e2 t2 =
        putRecord s id { rec with agents :=
          [agA,
           { agB with completed_at := some t2
                      duration_seconds := some ((t2 : Int) - (agB.started_at : Int))
                      status := if b2 then ExecutionStatus.SUCCESS else ExecutionStatus.FAILED
                      result := r2, error := e2 }] } := by
      unfold complete_agent
      simp only [h]
      rw [hagents]
      have := completeAgentsLoop_first_match nb b2 r2 e2 t2 agB [] [agA]
        (by
          intro x hx
          rw [List.mem_singleton] at hx
          subst hx
          intro hcontra
          exact hne (hA.symm.trans hcontra.1))
        hB hRB
      simp only [List.singleton_append] at this
      rw [this]
    rw [step1]
    have hget1 : get_execution (putRecord s id { rec with agents :=
        [agA,
         { agB with completed_at := some t2
                    duration_seconds := some ((t2 : Int) - (agB.started_at : Int))
                    status := if b2 then ExecutionStatus.SUCCESS else ExecutionStatus.FAILED
                    result := r2, error := e2 }] }) id =
        some { rec with agents :=
          [agA,
           { agB with completed_at := some t2
                      duration_seconds := some ((t2 : Int) - (agB.started_at : Int))
                      status := if b2 then ExecutionStatus.SUCCESS else ExecutionStatus.FAILED
                      result := r2, error := e2 }] } := by
      simp [get_execution, putRecord, alookup_astore_self]
    unfold complete_agent
    simp only [hget1]
    have hloop := completeAgentsLoop_first_match na b1 r1 e1 t1 agA
      [{ agB with completed_at := some t2
                  duration_seconds := some ((t2 : Int) - (agB.started_at : Int))
                  status := if b2 then ExecutionStatus.SUCCESS else ExecutionStatus.FAILED
                  result := r2, error := e2 }]
      [] (by simp) hA hRA
    simp only [List.nil_append] at hloop
    rw [hloop]
    simp [get_execution, putRecord, alookup_astore_self]

/-- C9 (witness): the amended theorem on the two-step store — serialized
completions of `"a"` and `"b"` (first order) leave both steps SUCCESS. -/
theorem claim_c9_witness :
    get_execution
        (complete_agent (complete_agent twoStepStore "e1" "a" true (some (.vStr "ra")) none 5)
          "e1" "b" true (some (.vStr "rb")) none 6) "e1" =
      some { execution_id := "e1", intent_type := "analyze_stock",
             status := ExecutionStatus.RUNNING, started_at := 0,
             parameters := [("symbol", .vStr "AAPL")],
             agents := [{ agent_name := "a", status := ExecutionStatus.SUCCESS,
                          started_at := 1, completed_at := some 5,
                          duration_seconds := some 4, result := some (.vStr "ra"),
                          error := none },
                        { agent_name := "b", status := ExecutionStatus.SUCCESS,
                          started_at := 2, completed_at := some 6,
                          duration_seconds := some 4, result := some (.vStr "rb"),
                          error := none }] } := by
  have := (claim_c9_amended twoStepStore "e1" "a" "b"
    { execution_id := "e1", intent_type := "analyze_stock",
      status := ExecutionStatus.RUNNING, started_at := 0,
      parameters := [("symbol", .vStr "AAPL")],
      agents := [{ agent_name := "a", status := ExecutionStatus.RUNNING, started_at := 1 },
                 { agent_name := "b", status := ExecutionStatus.RUNNING, started_at := 2 }] }
    { agent_name := "a", status := ExecutionStatus.RUNNING, started_at := 1 }
    { agent_name := "b", status := ExecutionStatus.RUNNING, started_at := 2 }
    true true (some (.vStr "ra")) (some (.vStr "rb")) none none 5 6
    (by decide) (by decide) (by decide) (by decide) (by decide) (by decide)
    (by decide)).1
  rw [this]
  rfl

/-! ## C10 — the pipeline's outputs are input-independent mock constants -/

/--
C10: the analyze-stock pipeline never fails (its `execute` is a total
function with no failure branch), and for every parameters dict the
aggregate report carries the fixed constants — recommendation `"BUY"`,
`overall_score` 7.75, `confidence` 0.82 and the fixed
technical/fundamental/news payloads; the store writes are entirely
independent of the parameters; a missing `"symbol"` key is silently
replaced by the string `"UNKNOWN"` instead of raising a validation error.
-/
theorem claim_c10 (s : Store) (id : String) (params : List (String × Value)) (clock : Nat) :
    (intentExecute s id params clock).1 =
      .vObj [("symbol", (alookup params "symbol").getD (.vStr "UNKNOWN")),
             ("analyzed_at", .vNum ((clock + 8 : Nat) : Rat)),
             ("recommendation", .vStr "BUY"),
             ("overall_score", .vNum 7.75),
             ("confidence", .vNum 0.82),
             ("technical", .vObj [("rsi", .vNum 65.5), ("macd", .vStr "bullish"),
                                  ("trend", .vStr "uptrend"), ("score", .vNum 7.5)]),
             ("fundamental", .vObj [("pe_ratio", .vNum 28.5), ("revenue_growth", .vNum 15.2),
                                    ("profit_margin", .vNum 25.8), ("score", .vNum 8.0)]),
             ("news_sentiment", .vObj [("sentiment", .vStr "positive"),
                                       ("sentiment_score", .vNum 0.75),
                                       ("recent_news_count", .vNum 12)])] ∧
    (∀ params' : List (String × Value),
      (intentExecute s id params clock).2.1 = (intentExecute s id params' clock).2.1) ∧
    (alookup params "symbol" = none →
      objGet (intentExecute s id params clock).1 "symbol" = some (.vStr "UNKNOWN")) := by
  refine ⟨rfl, fun _ => rfl, fun h => ?_⟩
  show some ((alookup params "symbol").getD (.vStr "UNKNOWN")) =
    some (Value.vStr "UNKNOWN")
  rw [h]
  rfl

/-- C10 (witness): at empty parameters the report's symbol is the literal
`"UNKNOWN"` and the aggregate fields are exactly the mock constants. -/
theorem claim_c10_witness :
    (intentExecute oneRecStore "e1" [] 1).1 =
      .vObj [("symbol", .vStr "UNKNOWN"),
             ("analyzed_at", .vNum 9),
             ("recommendation", .vStr "BUY"),
             ("overall_score", .vNum 7.75),
             ("confidence", .vNum 0.82),
             ("technical", .vObj [("rsi", .vNum 65.5), ("macd", .vStr "bullish"),
                                  ("trend", .vStr "uptrend"), ("score", .vNum 7.5)]),
             ("fundamental", .vObj [("pe_ratio", .vNum 28.5), ("revenue_growth", .vNum 15.2),
                                    ("profit_margin", .vNum 25.8), ("score", .vNum 8.0)]),
             ("news_sentiment", .vObj [("sentiment", .vStr "positive"),
                                       ("sentiment_score", .vNum 0.75),
                                       ("recent_news_count", .vNum 12)])] ∧
    objGet (intentExecute oneRecStore "e1" [] 1).1 "symbol" = some (.vStr "UNKNOWN") := by
  have h := claim_c10 oneRecStore "e1" [] 1
  exact ⟨h.1, h.2.2 rfl⟩

/-! ## C2 — there is no per-step failure path in the orchestrator -/

/--
C2: the spec's failure policy (a FAILED step aborts the remaining steps and
fails the whole job) is not implemented by `AnalyzeStockIntent.execute`:
the four agents are simulated inline and `complete_agent` is always called
with `success=True` and a mock payload — the pipeline never consults a
retry outcome and has no abort branch.  This theorem evaluates the code:
for **every** parameters dict, the final record has all four steps present
and SUCCESS (step 4 is always invoked), status SUCCESS, no error message,
and an aggregate result — so the antecedent of the claim (a step producing
a FAILED outcome) is unsatisfiable in the code and the abort behaviour it
describes does not exist.
-/
theorem claim_c2 (params : List (String × Value)) :
    (get_execution (analyze_stock_task oneRecStore "e1" params 1).2 "e1").map
      ExecutionRecord.status = some ExecutionStatus.SUCCESS ∧
    (get_execution (analyze_stock_task oneRecStore "e1" params 1).2 "e1").map
      (fun r => r.agents.map fun a => (a.agent_name, a.status, a.result, a.error)) =
      some [("technical_agent", ExecutionStatus.SUCCESS,
             some (mockAgentResult "technical_agent"), none),
            ("fundamental_agent", ExecutionStatus.SUCCESS,
             some (mockAgentResult "fundamental_agent"), none),
            ("news_agent", ExecutionStatus.SUCCESS,
             some (mockAgentResult "news_agent"), none),
            ("aggregation_agent", ExecutionStatus.SUCCESS,
             some (mockAgentResult "aggregation_agent"), none)] ∧
    (get_execution (analyze_stock_task oneRecStore "e1" params 1).2 "e1").map
      ExecutionRecord.error_message = some none ∧
    (get_execution (analyze_stock_task oneRecStore "e1" params 1).2 "e1").map
      ExecutionRecord.result =
      some (some (intentExecute oneRecStore "e1" params 1).1) :=
  ⟨rfl, rfl, rfl, rfl⟩

/-! ## C8 — `list_executions` bound, order and expiry tolerance -/

theorem zBefore_total (a b : String × Nat) : zBefore a b ∨ zBefore b a := by
  unfold zBefore
  rcases Nat.lt_trichotomy a.2 b.2 with h | h | h
  · exact Or.inr (Or.inl h)
  · rcases le_total b.1 a.1 with hs | hs
    · exact Or.inl (Or.inr ⟨h, hs⟩)
    · exact Or.inr (Or.inr ⟨h.symm, hs⟩)
  · exact Or.inl (Or.inl h)

theorem zBefore_trans {a b c : String × Nat} (h1 : zBefore a b) (h2 : zBefore b c) :
    zBefore a c := by
  unfold zBefore at *
  rcases h1 with h1 | ⟨h1e, h1s⟩
  · rcases h2 with h2 | ⟨h2e, _⟩
    · exact Or.inl (h2.trans h1)
    · exact Or.inl (h2e ▸ h1)
  · rcases h2 with h2 | ⟨h2e, h2s⟩
    · exact Or.inl (h1e ▸ h2)
    · exact Or.inr ⟨h1e.trans h2e, h2s.trans h1s⟩

theorem mem_zInsert (x a : String × Nat) :
    ∀ l : List (String × Nat), x ∈ zInsert a l ↔ x = a ∨ x ∈ l := by
  intro l
  induction l with
  | nil => simp [zInsert]
  | cons b rest ih =>
    by_cases h : zBefore a b
    · simp [zInsert, if_pos h, List.mem_cons]
    · simp only [zInsert, if_neg h, List.mem_cons, ih]
      tauto

theorem pairwise_zInsert (a : String × Nat) :
    ∀ l : List (String × Nat), l.Pairwise zBefore → (zInsert a l).Pairwise zBefore := by
  intro l
  induction l with
  | nil => intro _; simp [zInsert]
  | cons b rest ih =>
    intro hp
    rw [List.pairwise_cons] at hp
    by_cases h : zBefore a b
    · rw [zInsert, if_pos h, List.pairwise_cons]
      refine ⟨?_, List.pairwise_cons.mpr hp⟩
      intro y hy
      rcases List.mem_cons.mp hy with rfl | hy
      · exact h
      · exact zBefore_trans h (hp.1 y hy)
    · rw [zInsert, if_neg h, List.pairwise_cons]
      refine ⟨?_, ih hp.2⟩
      intro y hy
      rcases (mem_zInsert y a rest).mp hy with hya | hy
      · rw [hya]
        rcases zBefore_total a b with hab | hba
        · exact absurd hab h
        · exact hba
      · exact hp.1 y hy

theorem pairwise_zSortDesc :
    ∀ l : List (String × Nat), (zSortDesc l).Pairwise zBefore := by
  intro l
  induction l with
  | nil => simp [zSortDesc]
  | cons a rest ih => exact pairwise_zInsert a (zSortDesc rest) ih

theorem mem_zSortDesc {x : String × Nat} :
    ∀ {l : List (String × Nat)}, x ∈ zSortDesc l ↔ x ∈ l := by
  intro l
  induction l with
  | nil => simp [zSortDesc]
  | cons a rest ih =>
    simp only [zSortDesc, mem_zInsert, List.mem_cons, ih]

/-- Pairwise transfer through `filterMap`, with membership available in the
transfer hypothesis. -/
theorem pairwise_filterMap_of {α β : Type} (F : α → Option β)
    (R : α → α → Prop) (S : β → β → Prop) :
    ∀ l : List α, l.Pairwise R →
    (∀ a ∈ l, ∀ b ∈ l, R a b → ∀ x, F a = some x → ∀ y, F b = some y → S x y) →
    (l.filterMap F).Pairwise S := by
  intro l
  induction l with
  | nil => intro _ _; simp
  | cons a rest ih =>
    intro hp hrel
    rw [List.pairwise_cons] at hp
    rw [List.filterMap_cons]
    cases hF : F a with
    | none =>
      exact ih hp.2 (fun x hx y hy =>
        hrel x (List.mem_cons_of_mem a hx) y (List.mem_cons_of_mem a hy))
    | some x =>
      rw [List.pairwise_cons]
      constructor
      · intro y hy
        obtain ⟨b, hb, hFb⟩ := List.mem_filterMap.mp hy
        exact hrel a (List.mem_cons_self a rest) b (List.mem_cons_of_mem a hb)
          (hp.1 b hb) x hF y hFb
      · exact ih hp.2 (fun u hu v hv =>
          hrel u (List.mem_cons_of_mem a hu) v (List.mem_cons_of_mem a hv))

/-- `"execution:" ++ ·` is injective, so distinct execution ids never
collide on a Redis key. -/
theorem getKey_inj {a b : String} (h : getKey a = getKey b) : a = b := by
  unfold getKey at h
  have hd := congrArg String.data h
  simp only [String.data_append] at hd
  exact String.ext (List.append_cancel_left hd)

/-- Under `StoreWF`, a successful lookup through an index member recovers
the member as the record's id and the member's score as the record's
creation time. -/
theorem get_of_index_mem {s : Store} (hwf : StoreWF s) {p : String × Nat}
    (hp : p ∈ s.index) {r : ExecutionRecord}
    (hr : get_execution s p.1 = some r) :
    r.execution_id = p.1 ∧ r.started_at = p.2 := by
  have hmem : (getKey p.1, r) ∈ s.records := alookup_mem hr
  obtain ⟨hkey, hidx⟩ := hwf.1 _ hmem
  have hid : p.1 = r.execution_id := @getKey_inj p.1 r.execution_id hkey
  have hsc : alookup s.index p.1 = some p.2 := alookup_of_mem_nodup hwf.2 hp
  rw [← hid] at hidx
  rw [hidx] at hsc
  exact ⟨hid.symm, (Option.some.injEq _ _ ▸ hsc :)⟩

/--
C8 (counterexample): the claim says `list(limit)` returns **at most
`limit`** records for every limit.  For `limit = 0` the code asks Redis for
`zrevrange('executions:list', 0, -1)`, and the end index `-1` means "the
last element of the set", so the whole index is returned: on a store with
one record, `list(0)` returns 1 record, not 0.
-/
theorem claim_c8_counterexample :
    ¬ ((list_executions oneRecStore 0).length ≤ 0) ∧
    (list_executions oneRecStore 0).length = 1 := by
  decide

/--
C8 (amended): for every limit **≥ 1**, `list(limit)` returns at most
`limit` records, ordered most-recently-created first (creation timestamps
non-increasing along the result), every returned record is the one stored
under its id, and any id present in the recency index whose record has
expired out of the store is silently skipped (no returned record carries
it), so the result may be shorter than `limit`.  For `limit = 0` the call
instead returns every live record (Redis end-index `-1` semantics), per
the counterexample.
-/
theorem claim_c8_amended (s : Store) (limit : Nat)
    (hwf : StoreWF s) (hlim : 1 ≤ limit) :
    (list_executions s limit).length ≤ limit ∧
    ((list_executions s limit).map ExecutionRecord.started_at).Pairwise
      (fun a b => b ≤ a) ∧
    (∀ r ∈ list_executions s limit, get_execution s r.execution_id = some r) ∧
    (∀ id, get_execution s id = none →
      ∀ r ∈ list_executions s limit, r.execution_id ≠ id) := by
  have hcnt : zrevrangeTake (zSortDesc s.index).length ((limit : Int) - 1) = limit := by
    unfold zrevrangeTake
    rw [if_neg (by omega)]
    omega
  have hlist : list_executions s limit =
      ((zSortDesc s.index).take limit).filterMap (fun p => get_execution s p.1) := by
    unfold list_executions zrevrange
    dsimp only
    rw [hcnt, List.filterMap_map]
    rfl
  have hsub : ((zSortDesc s.index).take limit).Sublist (zSortDesc s.index) :=
    List.take_sublist limit (zSortDesc s.index)
  have hmemidx : ∀ p ∈ (zSortDesc s.index).take limit, p ∈ s.index := by
    intro p hp
    exact mem_zSortDesc.mp (hsub.subset hp)
  have hpw : ((zSortDesc s.index).take limit).Pairwise zBefore :=
    List.Pairwise.sublist hsub (pairwise_zSortDesc s.index)
  refine ⟨?_, ?_, ?_, ?_⟩
  · rw [hlist]
    calc (((zSortDesc s.index).take limit).filterMap
          (fun p => get_execution s p.1)).length
        ≤ ((zSortDesc s.index).take limit).length :=
          List.length_filterMap_le _ _
      _ ≤ limit := by rw [List.length_take]; omega
  · rw [hlist, ← List.filterMap_eq_map, List.filterMap_filterMap]
    apply pairwise_filterMap_of _ zBefore _ _ hpw
    intro p hp q hq hpq x hx y hy
    simp only [Option.bind_eq_some, Option.some.injEq] at hx hy
    obtain ⟨rx, hrx, hrxe⟩ := hx
    obtain ⟨ry, hry, hrye⟩ := hy
    obtain ⟨_, hxs⟩ := get_of_index_mem hwf (hmemidx p hp) hrx
    obtain ⟨_, hys⟩ := get_of_index_mem hwf (hmemidx q hq) hry
    simp only [Function.comp_apply, Option.some.injEq] at hrxe hrye
    subst hrxe
    subst hrye
    rw [hxs, hys]
    rcases hpq with h | ⟨h, _⟩
    · exact Nat.le_of_lt h
    · exact Nat.le_of_eq h.symm
  · rw [hlist]
    intro r hr
    obtain ⟨p, hp, hFp⟩ := List.mem_filterMap.mp hr
    obtain ⟨hid, _⟩ := get_of_index_mem hwf (hmemidx p hp) hFp
    rw [hid]
    exact hFp
  · rw [hlist]
    intro id hnone r hr hid
    obtain ⟨p, hp, hFp⟩ := List.mem_filterMap.mp hr
    obtain ⟨hpid, _⟩ := get_of_index_mem hwf (hmemidx p hp) hFp
    rw [← hpid, hid, hnone] at hFp
    exact Option.noConfusion hFp

/-- C8 (witness): the amended theorem on a store whose index still holds
the expired id `"gone"` alongside the live `"a"`, at limit 2: the bound,
the ordering, the store-consistency of every returned record, and the
skipping of `"gone"` all hold. -/
theorem claim_c8_witness :
    (list_executions expiredStore 2).length ≤ 2 ∧
    ((list_executions expiredStore 2).map ExecutionRecord.started_at).Pairwise
      (fun a b => b ≤ a) ∧
    (∀ r ∈ list_executions expiredStore 2,
      get_execution expiredStore r.execution_id = some r) ∧
    (∀ id, get_execution expiredStore id = none →
      ∀ r ∈ list_executions expiredStore 2, r.execution_id ≠ id) :=
  claim_c8_amended expiredStore 2 (by refine ⟨?_, ?_⟩ <;> decide) (by decide)

end StockPipeline
